import Mathlib

/-!
Verification of the typed-result decoder of the Malloy Publisher python
client (`malloy_publisher_sdk/utils.py`).

The module is shallowly embedded: Python values are modelled by `PyVal`,
Python exceptions by `PyErr`, and every operation of the module is a total
Lean function returning `Except PyErr _`.  Raising an exception is modelled
by returning `.error`; an uncaught propagating exception is simply an
`.error` of the corresponding kind.  The module-level optional import of
pandas (`pd`) is modelled by a boolean parameter `pdA` threaded to every
operation, and `json.loads` by an explicit deserializer parameter `loads`
(the decoder only ever wraps its failures, so it is kept abstract).
-/

namespace Publisher

/-- Python values occurring in the decoder: JSON-shaped data plus the
pandas `Timestamp` objects produced by timestamp decoding.  Numbers are
modelled as integers; the decoder never computes with them, it only moves
them around. -/
inductive PyVal where
  | str (s : String)
  | num (n : Int)
  | bool (b : Bool)
  | none
  | list (xs : List PyVal)
  | dict (kvs : List (String × PyVal))
  | timestamp (v : PyVal)

/-- Python exceptions that the decoder can raise or propagate.
`fuelExhausted` is an artifact of the fueled embedding of the recursive
cell extractor; it is never returned when the fuel exceeds the rank of the
cell (see `extractCellValueF_fuel_irrelevant`). -/
inductive PyErr where
  | malloyResultError (msg : String)
  | attributeError (msg : String)
  | typeError (msg : String)
  | keyError (key : String)
  | fuelExhausted

/-- Lookup in a Python dict (modelled as an association list with string
keys, first binding wins). -/
def dictLookup (kvs : List (String × PyVal)) (k : String) : Option PyVal :=
  (kvs.find? (fun kv => kv.1 == k)).map (fun kv => kv.2)

/-- Python `k in d` for a dict `d`. -/
def hasKey (kvs : List (String × PyVal)) (k : String) : Bool :=
  (dictLookup kvs k).isSome

/-- Python `d[k]` for a dict known to contain `k` (default otherwise;
every use in the embedding is guarded by `hasKey`). -/
def dictGetD (kvs : List (String × PyVal)) (k : String) (dflt : PyVal) : PyVal :=
  (dictLookup kvs k).getD dflt

/-- Python truthiness of a value (`if not x`). -/
def truthy : PyVal → Bool
  | .str s => !s.isEmpty
  | .num n => !(n == 0)
  | .bool b => b
  | .none => false
  | .list xs => !xs.isEmpty
  | .dict kvs => !kvs.isEmpty
  | .timestamp _ => true

/-- Python iteration `for item in v`: lists yield elements, strings yield
their characters as one-character strings, dicts yield their keys; other
values are not iterable. -/
def pyIter : PyVal → Except PyErr (List PyVal)
  | .list xs => .ok xs
  | .str s => .ok (s.toList.map (fun c => .str c.toString))
  | .dict kvs => .ok (kvs.map (fun kv => .str kv.1))
  | _ => .error (.typeError "object is not iterable")

/-- Python subscript `v[k]` with a string key. -/
def pySubscript (v : PyVal) (k : String) : Except PyErr PyVal :=
  match v with
  | .dict kvs =>
    match dictLookup kvs k with
    | some x => .ok x
    | Option.none => .error (.keyError k)
  | .str _ => .error (.typeError "string indices must be integers")
  | .list _ => .error (.typeError "list indices must be integers")
  | _ => .error (.typeError "object is not subscriptable")

/-- Python `v.get(k, dflt)`: only dicts have the `get` attribute. -/
def pyGet (v : PyVal) (k : String) (dflt : PyVal) : Except PyErr PyVal :=
  match v with
  | .dict kvs => .ok (dictGetD kvs k dflt)
  | _ => .error (.attributeError "object has no attribute get")

/-- Python `len(v)`. -/
def pyLen : PyVal → Except PyErr Nat
  | .str s => .ok s.length
  | .list xs => .ok xs.length
  | .dict kvs => .ok kvs.length
  | _ => .error (.typeError "object has no len")

/-- Python `needle in s` for strings (substring containment). -/
def strIn (needle s : String) : Bool :=
  needle.isEmpty || (s.splitOn needle).length != 1

/-- Python `k == v` where `k` is a string literal: true exactly for the
equal string. -/
def pyEqStr (k : String) : PyVal → Bool
  | .str s => s == k
  | _ => false

/-- Python `k in v` for a string literal `k`: key membership for dicts,
element membership for lists, substring test for strings, `TypeError`
otherwise. -/
def tagCheck (k : String) : PyVal → Except PyErr Bool
  | .dict kvs => .ok (hasKey kvs k)
  | .list xs => .ok (xs.any (pyEqStr k))
  | .str s => .ok (strIn k s)
  | _ => .error (.typeError "argument of type is not iterable")

/-- Python `==` between hashable values (the only values the decoder ever
uses as dict keys; lists and dicts are unhashable and are rejected by
`pySetItem` before any comparison). -/
def pyEqb : PyVal → PyVal → Bool
  | .str a, .str b => a == b
  | .num a, .num b => a == b
  | .bool a, .bool b => a == b
  | .none, .none => true
  | .timestamp a, .timestamp b => pyEqb a b
  | _, _ => false

/-- Python hashability: everything except lists and dicts here. -/
def pyHashable : PyVal → Bool
  | .list _ => false
  | .dict _ => false
  | _ => true

/-- A Python dict built with arbitrary (hashable) keys, as the row
dictionaries of the decoder are.  Insertion order is remembered. -/
abbrev Row := List (PyVal × PyVal)

/-- Python `d[k] = v` on a row dict: replaces the value of an existing
key in place, else appends; unhashable keys raise `TypeError`. -/
def pySetItem (d : Row) (k v : PyVal) : Except PyErr Row :=
  if pyHashable k then
    .ok (if d.any (fun kv => pyEqb kv.1 k) then
          d.map (fun kv => if pyEqb kv.1 k then (kv.1, v) else kv)
        else d ++ [(k, v)])
  else .error (.typeError "unhashable type")

mutual

/-- Rank of a value, bounding the recursion depth of the cell extractor. -/
def pyRank : PyVal → Nat
  | .str _ => 0
  | .num _ => 0
  | .bool _ => 0
  | .none => 0
  | .timestamp _ => 0
  | .list xs => pyRankList xs + 1
  | .dict kvs => pyRankKVs kvs + 1

/-- Rank of a list of values. -/
def pyRankList : List PyVal → Nat
  | [] => 0
  | x :: xs => pyRank x + pyRankList xs + 1

/-- Rank of the values of an association list. -/
def pyRankKVs : List (String × PyVal) → Nat
  | [] => 0
  | kv :: kvs => pyRank kv.2 + pyRankKVs kvs + 1

end

/-- Error-propagating map over a list, as a Python list comprehension
`[f(item) for item in items]` evaluates: first exception wins. -/
def mapExcept (f : PyVal → Except PyErr PyVal) : List PyVal → Except PyErr (List PyVal)
  | [] => .ok []
  | x :: xs =>
    match f x with
    | .error e => .error e
    | .ok v =>
      match mapExcept f xs with
      | .error e => .error e
      | .ok vs => .ok (v :: vs)

/-- Source `_extract_cell_value` on a string cell (`utils.py` lines 35-55
specialised to `cell` a Python `str`): every membership test is a
substring test, every subscript raises `TypeError`, the `null_value`
branch returns `None` without subscripting, and the fallback returns the
string unchanged. -/
def strCellExtract (s : String) : Except PyErr PyVal :=
  if strIn "string_value" s then .error (.typeError "string indices must be integers")
  else if strIn "number_value" s then .error (.typeError "string indices must be integers")
  else if strIn "bool_value" s then .error (.typeError "string indices must be integers")
  else if strIn "null_value" s then .ok .none
  else if strIn "timestamp_value" s then .error (.typeError "string indices must be integers")
  else if strIn "date_value" s then .error (.typeError "string indices must be integers")
  else if strIn "array_value" s then .error (.typeError "string indices must be integers")
  else if strIn "record_value" s then .error (.typeError "string indices must be integers")
  else .ok (.str s)

/-- Source `_extract_cell_value` on a list cell: membership tests compare
the tag string against the elements, every subscript raises `TypeError`,
`null_value` returns `None`, the fallback returns the list unchanged. -/
def listCellExtract (xs : List PyVal) : Except PyErr PyVal :=
  if xs.any (pyEqStr "string_value") then .error (.typeError "list indices must be integers")
  else if xs.any (pyEqStr "number_value") then .error (.typeError "list indices must be integers")
  else if xs.any (pyEqStr "bool_value") then .error (.typeError "list indices must be integers")
  else if xs.any (pyEqStr "null_value") then .ok .none
  else if xs.any (pyEqStr "timestamp_value") then .error (.typeError "list indices must be integers")
  else if xs.any (pyEqStr "date_value") then .error (.typeError "list indices must be integers")
  else if xs.any (pyEqStr "array_value") then .error (.typeError "list indices must be integers")
  else if xs.any (pyEqStr "record_value") then .error (.typeError "list indices must be integers")
  else .ok (.list xs)

/-- Fueled embedding of `_extract_cell_value` (`utils.py` lines 22-55).
The fuel only makes the recursion structural; `pyRank cell` bounds it
(see `extractCellValueF_fuel_irrelevant`).  Dispatch is exactly the
source's `if`/`elif` chain: `string_value`, `number_value`, `bool_value`,
`null_value` (returns `None`), `timestamp_value` (wrapped in
`pd.Timestamp` exactly when pandas is available), `date_value`,
`array_value` and `record_value` (recurse over the elements), and the
permissive fallback returning the cell unchanged. -/
def extractCellValueF (pdA : Bool) : Nat → PyVal → Except PyErr PyVal
  | 0, _ => .error .fuelExhausted
  | fuel + 1, cell =>
    match cell with
    | .dict kvs =>
      if hasKey kvs "string_value" then .ok (dictGetD kvs "string_value" .none)
      else if hasKey kvs "number_value" then .ok (dictGetD kvs "number_value" .none)
      else if hasKey kvs "bool_value" then .ok (dictGetD kvs "bool_value" .none)
      else if hasKey kvs "null_value" then .ok .none
      else if hasKey kvs "timestamp_value" then
        .ok (if pdA then .timestamp (dictGetD kvs "timestamp_value" .none)
             else dictGetD kvs "timestamp_value" .none)
      else if hasKey kvs "date_value" then .ok (dictGetD kvs "date_value" .none)
      else if hasKey kvs "array_value" then
        match pyIter (dictGetD kvs "array_value" .none) with
        | .error e => .error e
        | .ok items =>
          match mapExcept (extractCellValueF pdA fuel) items with
          | .error e => .error e
          | .ok vs => .ok (.list vs)
      else if hasKey kvs "record_value" then
        match pyIter (dictGetD kvs "record_value" .none) with
        | .error e => .error e
        | .ok items =>
          match mapExcept (extractCellValueF pdA fuel) items with
          | .error e => .error e
          | .ok vs => .ok (.list vs)
      else .ok (.dict kvs)
    | .str s => strCellExtract s
    | .list xs => listCellExtract xs
    | _ => .error (.typeError "argument of type is not iterable")

/-- Source `_extract_cell_value`, with enough fuel for its input. -/
def extract_cell_value (pdA : Bool) (cell : PyVal) : Except PyErr PyVal :=
  extractCellValueF pdA (pyRank cell + 1) cell

example : extract_cell_value true (.dict [("string_value", .str "a")]) = .ok (.str "a") := rfl

example : extract_cell_value true (.dict [("x", .str "a")]) = .ok (.dict [("x", .str "a")]) := rfl

example : extract_cell_value true
    (.dict [("array_value", .list [.dict [("string_value", .str "a")], .dict [("null_value", .none)]])]) =
    .ok (.list [.str "a", .none]) := rfl

example : extract_cell_value false (.dict [("timestamp_value", .str "2024-01-01")]) =
    .ok (.str "2024-01-01") := rfl

example : extract_cell_value true (.dict [("timestamp_value", .str "2024-01-01")]) =
    .ok (.timestamp (.str "2024-01-01")) := rfl

example : pyRank (.dict [("a", .list [.none])]) = 4 := rfl

/-- The external `QueryResult`-like object: an opaque Python object with
attributes; the decoder only ever reads its `result` attribute. -/
structure QueryResult where
  attrs : List (String × PyVal)

/-- Lines 120-125 / 201-206 / 268-274 of `utils.py`: `hasattr(query_result,
"result")` then `query_result.result`, else a `MalloyResultError`. -/
def getResultAttr (qr : QueryResult) : Except PyErr PyVal :=
  match dictLookup qr.attrs "result" with
  | some v => .ok v
  | Option.none => .error (.malloyResultError "Expected a QueryResult object with result field")

/-- Source `_parse_malloy_result` (`utils.py` lines 58-76): a string is
deserialized with `json.loads` (kept abstract as `loads`), whose failure
is wrapped in a `MalloyResultError`; anything else is passed through. -/
def parse_malloy_result (loads : String → Except String PyVal) : PyVal → Except PyErr PyVal
  | .str s =>
    match loads s with
    | .ok v => .ok v
    | .error e => .error (.malloyResultError ("Failed to parse Malloy result: " ++ e))
  | v => .ok v

/-- Lines 139/143 and 223 of `utils.py`:
`[field["name"] for field in schema["fields"]]`. -/
def fieldNamesOf (schema : PyVal) : Except PyErr (List PyVal) :=
  match pySubscript schema "fields" with
  | .error e => .error e
  | .ok fv =>
    match pyIter fv with
    | .error e => .error e
    | .ok fields => mapExcept (fun f => pySubscript f "name") fields

/-- Inner row loop of `to_dict` (`utils.py` lines 237-240): for each cell
of the record, in order, if its index is below the number of fields,
decode it and store it under the field name of that index. -/
def rowDictDict (pdA : Bool) (field_names : List PyVal) :
    List PyVal → Nat → Row → Except PyErr Row
  | [], _, row_dict => .ok row_dict
  | cell :: rest, idx, row_dict =>
    if h : idx < field_names.length then
      match extract_cell_value pdA cell with
      | .error e => .error e
      | .ok v =>
        match pySetItem row_dict (field_names.get ⟨idx, h⟩) v with
        | .error e => .error e
        | .ok rd => rowDictDict pdA field_names rest (idx + 1) rd
    else rowDictDict pdA field_names rest (idx + 1) row_dict

/-- Inner row loop of `to_dataframe` (`utils.py` lines 157-160); the
source duplicates the `to_dict` loop verbatim, and so does the model. -/
def rowDictDf (pdA : Bool) (field_names : List PyVal) :
    List PyVal → Nat → Row → Except PyErr Row
  | [], _, row_dict => .ok row_dict
  | cell :: rest, idx, row_dict =>
    if h : idx < field_names.length then
      match extract_cell_value pdA cell with
      | .error e => .error e
      | .ok v =>
        match pySetItem row_dict (field_names.get ⟨idx, h⟩) v with
        | .error e => .error e
        | .ok rd => rowDictDf pdA field_names rest (idx + 1) rd
    else rowDictDf pdA field_names rest (idx + 1) row_dict

/-- Outer row loop of `to_dict` (`utils.py` lines 229-242): a row without
a `record_value` key is skipped entirely, any other row contributes the
dict built from its `record_value` cells. -/
def buildRowsDict (pdA : Bool) (field_names : List PyVal) :
    List PyVal → Except PyErr (List Row)
  | [] => .ok []
  | row_data :: rest =>
    match tagCheck "record_value" row_data with
    | .error e => .error e
    | .ok false => buildRowsDict pdA field_names rest
    | .ok true =>
      match pySubscript row_data "record_value" with
      | .error e => .error e
      | .ok record =>
        match pyIter record with
        | .error e => .error e
        | .ok cells =>
          match rowDictDict pdA field_names cells 0 [] with
          | .error e => .error e
          | .ok row_dict =>
            match buildRowsDict pdA field_names rest with
            | .error e => .error e
            | .ok rows => .ok (row_dict :: rows)

/-- Outer row loop of `to_dataframe` (`utils.py` lines 149-162); again a
verbatim duplicate of the `to_dict` loop in the source. -/
def buildRowsDf (pdA : Bool) (field_names : List PyVal) :
    List PyVal → Except PyErr (List Row)
  | [] => .ok []
  | row_data :: rest =>
    match tagCheck "record_value" row_data with
    | .error e => .error e
    | .ok false => buildRowsDf pdA field_names rest
    | .ok true =>
      match pySubscript row_data "record_value" with
      | .error e => .error e
      | .ok record =>
        match pyIter record with
        | .error e => .error e
        | .ok cells =>
          match rowDictDf pdA field_names cells 0 [] with
          | .error e => .error e
          | .ok row_dict =>
            match buildRowsDf pdA field_names rest with
            | .error e => .error e
            | .ok rows => .ok (row_dict :: rows)

/-- The result of `pd.DataFrame(...)` as far as the decoder's contract is
concerned: the column labels and the row dicts the frame was built from. -/
structure DataFrame where
  columns : List PyVal
  records : List Row

/-- Helper for `collectCols`: append the keys of one row that have not
been seen yet, preserving first-seen order. -/
def addCols (acc : List PyVal) : List PyVal → List PyVal
  | [] => acc
  | k :: ks => if acc.any (fun c => pyEqb c k) then addCols acc ks else addCols (acc ++ [k]) ks

/-- Column labels `pd.DataFrame(rows)` derives from a list of dicts: the
union of the row keys in first-seen order (an empty list of rows gives an
empty column index). -/
def collectCols (rows : List Row) : List PyVal :=
  rows.foldl (fun acc r => addCols acc (r.map (fun kv => kv.1))) []

/-- Python `pd.DataFrame(rows)` for `rows` a list of row dicts. -/
def mkDataFrameRecords (rows : List Row) : DataFrame :=
  { columns := collectCols rows, records := rows }

/-- Source `to_dict` (`utils.py` lines 168-244).  `loads` stands for
`json.loads`, `pdA` for the module-level pandas availability flag (the
body of `to_dict` consults it only through `_extract_cell_value`). -/
def to_dict (loads : String → Except String PyVal) (pdA : Bool) (qr : QueryResult) :
    Except PyErr (List Row) :=
  match getResultAttr qr with
  | .error e => .error e
  | .ok result_json =>
    match parse_malloy_result loads result_json with
    | .error e => .error e
    | .ok parsed =>
      match pyGet parsed "schema" (.dict []) with
      | .error e => .error e
      | .ok schema =>
        match pyGet parsed "data" (.dict []) with
        | .error e => .error e
        | .ok data =>
          if !truthy schema then .error (.malloyResultError "Result missing schema information")
          else
            match tagCheck "fields" schema with
            | .error e => .error e
            | .ok fieldsIn =>
              if !fieldsIn then .error (.malloyResultError "Result missing schema information")
              else if !truthy data then .ok []
              else
                match tagCheck "array_value" data with
                | .error e => .error e
                | .ok avIn =>
                  if !avIn then .ok []
                  else
                    match fieldNamesOf schema with
                    | .error e => .error e
                    | .ok field_names =>
                      match pySubscript data "array_value" with
                      | .error e => .error e
                      | .ok av =>
                        match pyIter av with
                        | .error e => .error e
                        | .ok rowsIn => buildRowsDict pdA field_names rowsIn

/-- Source `to_dataframe` (`utils.py` lines 79-165): requires pandas,
shares the parse/guard structure of `to_dict` but treats a present empty
`array_value` as the empty result too, returning an empty frame whose
columns are the schema field names; otherwise it builds the row dicts and
hands them to `pd.DataFrame`. -/
def to_dataframe (loads : String → Except String PyVal) (pdA : Bool) (qr : QueryResult) :
    Except PyErr DataFrame :=
  if !pdA then
    .error (.malloyResultError
      "pandas is required for DataFrame conversion. Install it with: pip install pandas")
  else
    match getResultAttr qr with
    | .error e => .error e
    | .ok result_json =>
      match parse_malloy_result loads result_json with
      | .error e => .error e
      | .ok parsed =>
        match pyGet parsed "schema" (.dict []) with
        | .error e => .error e
        | .ok schema =>
          match pyGet parsed "data" (.dict []) with
          | .error e => .error e
          | .ok data =>
            if !truthy schema then .error (.malloyResultError "Result missing schema information")
            else
              match tagCheck "fields" schema with
              | .error e => .error e
              | .ok fieldsIn =>
                if !fieldsIn then .error (.malloyResultError "Result missing schema information")
                else
                  let isEmpty : Except PyErr Bool :=
                    if !truthy data then .ok true
                    else
                      match tagCheck "array_value" data with
                      | .error e => .error e
                      | .ok avIn =>
                        if !avIn then .ok true
                        else
                          match pySubscript data "array_value" with
                          | .error e => .error e
                          | .ok av =>
                            match pyLen av with
                            | .error e => .error e
                            | .ok n => .ok (n == 0)
                  match isEmpty with
                  | .error e => .error e
                  | .ok true =>
                    match fieldNamesOf schema with
                    | .error e => .error e
                    | .ok field_names => .ok { columns := field_names, records := [] }
                  | .ok false =>
                    match fieldNamesOf schema with
                    | .error e => .error e
                    | .ok field_names =>
                      match pySubscript data "array_value" with
                      | .error e => .error e
                      | .ok av =>
                        match pyIter av with
                        | .error e => .error e
                        | .ok rowsIn =>
                          match buildRowsDf pdA field_names rowsIn with
                          | .error e => .error e
                          | .ok rows => .ok (mkDataFrameRecords rows)

/-- Source `get_schema` (`utils.py` lines 247-285): returns
`schema["fields"]` unchanged.  `pdA` is the module-level pandas flag; the
body of `get_schema` never consults it. -/
def get_schema (loads : String → Except String PyVal) (pdA : Bool) (qr : QueryResult) :
    Except PyErr PyVal :=
  match getResultAttr qr with
  | .error e => .error e
  | .ok result_json =>
    match parse_malloy_result loads result_json with
    | .error e => .error e
    | .ok parsed =>
      match pyGet parsed "schema" (.dict []) with
      | .error e => .error e
      | .ok schema =>
        if !truthy schema then .error (.malloyResultError "Result missing schema information")
        else
          match tagCheck "fields" schema with
          | .error e => .error e
          | .ok fieldsIn =>
            if !fieldsIn then .error (.malloyResultError "Result missing schema information")
            else pySubscript schema "fields"

/-- A deserializer that never succeeds, standing for `json.loads` applied
to malformed text. -/
def loadsFailing (e : String) : String → Except String PyVal := fun _ => .error e

/-- A deserializer modelling `json.loads` on the concrete document
`"42"`, which deserializes to the integer `42`. -/
def loadsNum42 : String → Except String PyVal :=
  fun s => if s == "42" then .ok (.num 42) else .error "Expecting value: line 1 column 1 (char 0)"

/-- A query result whose `result` attribute is the given value. -/
def mkQueryResult (v : PyVal) : QueryResult := { attrs := [("result", v)] }

/-- A concrete query result whose single row holds one timestamp cell;
used to exhibit the capability-dependence of `to_dict`. -/
def tsQueryResult : QueryResult :=
  mkQueryResult (.dict
    [("schema", .dict [("fields", .list [.dict [("name", .str "t")]])]),
     ("data", .dict [("array_value", .list
       [.dict [("record_value", .list [.dict [("timestamp_value", .str "2024-01-01")]])]])])])

/-- A row of `array_value` that "contains a record_value key": a mapping
with a `record_value` key.  Rows of other shapes never materialize. -/
def rowHasRecordValue : PyVal → Bool
  | .dict kvs => hasKey kvs "record_value"
  | _ => false

/-- Whether a value is a Python dict. -/
def isDictB : PyVal → Bool
  | .dict _ => true
  | _ => false

/-- Materialization of one non-skipped row, exactly as both row loops
perform it: subscript `record_value`, iterate it, fold the cells into a
row dict. -/
def materializeRowDict (pdA : Bool) (field_names : List PyVal) (row_data : PyVal) :
    Except PyErr Row :=
  match pySubscript row_data "record_value" with
  | .error e => .error e
  | .ok record =>
    match pyIter record with
    | .error e => .error e
    | .ok cells => rowDictDict pdA field_names cells 0 []

/-- A row that, if it carries `record_value`, carries a sequence of at
least `n` cells; rows of other shapes do not qualify.  Used to state when
the materialized rows cover all schema fields. -/
def rowCoversFields (n : Nat) : PyVal → Bool
  | .dict kvs =>
    match dictLookup kvs "record_value" with
    | some (.list cells) => n ≤ cells.length
    | some _ => false
    | Option.none => true
  | _ => false

/-- Error-propagating map producing row dicts, first error wins. -/
def mapExceptRows (f : PyVal → Except PyErr Row) : List PyVal → Except PyErr (List Row)
  | [] => .ok []
  | x :: xs =>
    match f x with
    | .error e => .error e
    | .ok r =>
      match mapExceptRows f xs with
      | .error e => .error e
      | .ok rs => .ok (r :: rs)

example :
    to_dict (fun _ => .error "x") true
      (mkQueryResult (.dict
        [("schema", .dict [("fields", .list [.dict [("name", .str "name")], .dict [("name", .str "count")]])]),
         ("data", .dict [("array_value", .list
           [.dict [("record_value", .list [.dict [("string_value", .str "Alice")], .dict [("number_value", .num 10)]])],
            .dict [],
            .dict [("record_value", .list [.dict [("string_value", .str "Bob")], .dict [("number_value", .num 20)]])]])])])) =
    .ok [[(.str "name", .str "Alice"), (.str "count", .num 10)],
         [(.str "name", .str "Bob"), (.str "count", .num 20)]] := rfl

example :
    to_dataframe (fun _ => .error "x") true
      (mkQueryResult (.dict
        [("schema", .dict [("fields", .list [.dict [("name", .str "a")]])]),
         ("data", .dict [("array_value", .list [.dict []])])])) =
    .ok { columns := [], records := [] } := rfl

example :
    to_dict loadsNum42 true (mkQueryResult (.str "42")) =
    .error (.attributeError "object has no attribute get") := rfl

example :
    get_schema (fun _ => .error "x") true
      (mkQueryResult (.dict [("schema", .dict [("fields", .list [.dict [("name", .str "a")]])])])) =
    .ok (.list [.dict [("name", .str "a")]]) := rfl

theorem mapExcept_congr {f g : PyVal → Except PyErr PyVal} :
    ∀ {xs : List PyVal}, (∀ x ∈ xs, f x = g x) → mapExcept f xs = mapExcept g xs
  | [], _ => rfl
  | x :: xs, h => by
    have hx : f x = g x := h x (List.mem_cons_self x xs)
    have hxs : mapExcept f xs = mapExcept g xs :=
      mapExcept_congr (fun y hy => h y (List.mem_cons_of_mem x hy))
    simp only [mapExcept, hx, hxs]

theorem pyRank_dictLookup_le {kvs : List (String × PyVal)} {k : String} {v : PyVal} :
    dictLookup kvs k = some v → pyRank v ≤ pyRankKVs kvs := by
  induction kvs with
  | nil => intro h; simp [dictLookup] at h
  | cons kv rest ih =>
    intro h
    simp only [dictLookup, List.find?] at h
    by_cases hk : kv.1 == k
    · simp [hk] at h
      subst h
      simp [pyRankKVs]
      omega
    · simp [hk] at h
      have := ih (by simpa [dictLookup] using h)
      simp [pyRankKVs]
      omega

theorem pyRank_mem_le {x : PyVal} : ∀ {xs : List PyVal}, x ∈ xs → pyRank x ≤ pyRankList xs := by
  intro xs
  induction xs with
  | nil => intro h; cases h
  | cons y ys ih =>
    intro h
    rcases List.mem_cons.mp h with h | h
    · subst h; simp [pyRankList]; omega
    · have := ih h; simp [pyRankList]; omega

theorem pyRank_pyIter_le {p : PyVal} {items : List PyVal} {x : PyVal} :
    pyIter p = .ok items → x ∈ items → pyRank x ≤ pyRank p := by
  intro hit hmem
  cases p with
  | list xs =>
    simp only [pyIter, Except.ok.injEq] at hit
    subst hit
    have := pyRank_mem_le hmem
    simp [pyRank]
    omega
  | str s =>
    simp only [pyIter, Except.ok.injEq] at hit
    subst hit
    rcases List.mem_map.mp hmem with ⟨c, _, rfl⟩
    simp [pyRank]
  | dict kvs =>
    simp only [pyIter, Except.ok.injEq] at hit
    subst hit
    rcases List.mem_map.mp hmem with ⟨kv, _, rfl⟩
    simp [pyRank]
  | num n => simp [pyIter] at hit
  | bool b => simp [pyIter] at hit
  | none => simp [pyIter] at hit
  | timestamp v => simp [pyIter] at hit

theorem hasKey_dictLookup {kvs : List (String × PyVal)} {k : String} :
    hasKey kvs k = true → ∃ v, dictLookup kvs k = some v := by
  intro h
  simpa [hasKey, Option.isSome_iff_exists] using h

/-- The fuel of the fueled cell extractor is irrelevant as soon as it
exceeds the rank of the cell; in particular the sentinel
`fuelExhausted` is never reached from `extract_cell_value`. -/
theorem extractCellValueF_fuel_irrelevant (pdA : Bool) :
    ∀ (f : Nat) {g : Nat} {cell : PyVal}, pyRank cell < f → pyRank cell < g →
      extractCellValueF pdA f cell = extractCellValueF pdA g cell := by
  intro f
  induction f with
  | zero => intro g cell hf hg; omega
  | succ f ih =>
    intro g cell hf hg
    cases g with
    | zero => omega
    | succ g =>
      cases cell with
      | str s => rfl
      | num n => rfl
      | bool b => rfl
      | none => rfl
      | timestamp v => rfl
      | list xs => rfl
      | dict kvs =>
        have hkf : pyRankKVs kvs < f := by simp [pyRank] at hf; omega
        have hkg : pyRankKVs kvs < g := by simp [pyRank] at hg; omega
        simp only [extractCellValueF]
        by_cases h1 : hasKey kvs "string_value" = true
        · simp [h1]
        by_cases h2 : hasKey kvs "number_value" = true
        · simp [h1, h2]
        by_cases h3 : hasKey kvs "bool_value" = true
        · simp [h1, h2, h3]
        by_cases h4 : hasKey kvs "null_value" = true
        · simp [h1, h2, h3, h4]
        by_cases h5 : hasKey kvs "timestamp_value" = true
        · simp [h1, h2, h3, h4, h5]
        by_cases h6 : hasKey kvs "date_value" = true
        · simp [h1, h2, h3, h4, h5, h6]
        by_cases h7 : hasKey kvs "array_value" = true
        · rcases hasKey_dictLookup h7 with ⟨p, hp⟩
          have hgd : dictGetD kvs "array_value" .none = p := by simp [dictGetD, hp]
          cases hit : pyIter p with
          | error e => simp [h1, h2, h3, h4, h5, h6, h7, hgd, hit]
          | ok items =>
            have hme : mapExcept (extractCellValueF pdA f) items =
                mapExcept (extractCellValueF pdA g) items := by
              refine mapExcept_congr (fun x hx => ?_)
              have hxp : pyRank x ≤ pyRank p := pyRank_pyIter_le hit hx
              have hpk : pyRank p ≤ pyRankKVs kvs := pyRank_dictLookup_le hp
              exact ih (by omega) (by omega)
            simp [h1, h2, h3, h4, h5, h6, h7, hgd, hit, hme]
        by_cases h8 : hasKey kvs "record_value" = true
        · rcases hasKey_dictLookup h8 with ⟨p, hp⟩
          have hgd : dictGetD kvs "record_value" .none = p := by simp [dictGetD, hp]
          cases hit : pyIter p with
          | error e => simp [h1, h2, h3, h4, h5, h6, h7, h8, hgd, hit]
          | ok items =>
            have hme : mapExcept (extractCellValueF pdA f) items =
                mapExcept (extractCellValueF pdA g) items := by
              refine mapExcept_congr (fun x hx => ?_)
              have hxp : pyRank x ≤ pyRank p := pyRank_pyIter_le hit hx
              have hpk : pyRank p ≤ pyRankKVs kvs := pyRank_dictLookup_le hp
              exact ih (by omega) (by omega)
            simp [h1, h2, h3, h4, h5, h6, h7, h8, hgd, hit, hme]
        · simp [h1, h2, h3, h4, h5, h6, h7, h8]

/-- One controlled unfolding step of the fueled extractor on a dict cell. -/
theorem extractF_dict_succ (pdA : Bool) (f : Nat) (kvs : List (String × PyVal)) :
    extractCellValueF pdA (f + 1) (.dict kvs) =
      (if hasKey kvs "string_value" then .ok (dictGetD kvs "string_value" .none)
      else if hasKey kvs "number_value" then .ok (dictGetD kvs "number_value" .none)
      else if hasKey kvs "bool_value" then .ok (dictGetD kvs "bool_value" .none)
      else if hasKey kvs "null_value" then .ok .none
      else if hasKey kvs "timestamp_value" then
        .ok (if pdA then .timestamp (dictGetD kvs "timestamp_value" .none)
             else dictGetD kvs "timestamp_value" .none)
      else if hasKey kvs "date_value" then .ok (dictGetD kvs "date_value" .none)
      else if hasKey kvs "array_value" then
        match pyIter (dictGetD kvs "array_value" .none) with
        | .error e => .error e
        | .ok items =>
          match mapExcept (extractCellValueF pdA f) items with
          | .error e => .error e
          | .ok vs => .ok (.list vs)
      else if hasKey kvs "record_value" then
        match pyIter (dictGetD kvs "record_value" .none) with
        | .error e => .error e
        | .ok items =>
          match mapExcept (extractCellValueF pdA f) items with
          | .error e => .error e
          | .ok vs => .ok (.list vs)
      else .ok (.dict kvs)) := rfl

/-- Any sufficient fuel computes `extract_cell_value`. -/
theorem extractCellValueF_eq_extract (pdA : Bool) {f : Nat} {cell : PyVal}
    (hf : pyRank cell < f) :
    extractCellValueF pdA f cell = extract_cell_value pdA cell :=
  extractCellValueF_fuel_irrelevant pdA f hf (Nat.lt_succ_self _)

theorem getResultAttr_mk (v : PyVal) : getResultAttr (mkQueryResult v) = .ok v := rfl

theorem truthy_of_hasKey {kvs : List (String × PyVal)} {k : String}
    (h : hasKey kvs k = true) : truthy (.dict kvs) = true := by
  cases kvs with
  | nil => simp [hasKey, dictLookup] at h
  | cons kv rest => simp [truthy]

/-- How far the recursion of the extractor can reach from a dict cell:
any member of an iterated looked-up payload has rank strictly below the
rank of the dict. -/
theorem pyRank_payload_item_lt {kvs : List (String × PyVal)} {k : String} {p x : PyVal}
    {items : List PyVal} (hp : dictLookup kvs k = some p) (hit : pyIter p = .ok items)
    (hx : x ∈ items) : pyRank x < pyRank (.dict kvs) := by
  have h1 : pyRank x ≤ pyRank p := pyRank_pyIter_le hit hx
  have h2 : pyRank p ≤ pyRankKVs kvs := pyRank_dictLookup_le hp
  simp [pyRank]
  omega

/-- Claim C3 (amended): timestamp decoding depends on the pandas
capability, not on which output operation runs.  For a cell whose first
matching tag is `timestamp_value` with literal `v`, `_extract_cell_value`
— shared by `to_dict` and `to_dataframe` — yields the native timestamp
`pd.Timestamp(v)` when pandas is available and the raw literal `v`
otherwise. -/
theorem timestamp_decoding_follows_capability (pdA : Bool) (kvs : List (String × PyVal))
    (v : PyVal)
    (h1 : hasKey kvs "string_value" = false)
    (h2 : hasKey kvs "number_value" = false)
    (h3 : hasKey kvs "bool_value" = false)
    (h4 : hasKey kvs "null_value" = false)
    (ht : dictLookup kvs "timestamp_value" = some v) :
    extract_cell_value pdA (.dict kvs) = .ok (if pdA then .timestamp v else v) := by
  have h5 : hasKey kvs "timestamp_value" = true := by simp [hasKey, ht]
  show extractCellValueF pdA (pyRank (.dict kvs) + 1) (.dict kvs) = _
  simp [extractCellValueF, h1, h2, h3, h4, h5, dictGetD, ht]

/-- Witness for `timestamp_decoding_follows_capability` at a concrete
one-tag timestamp cell, with and without the pandas capability. -/
theorem timestamp_decoding_follows_capability_witness :
    extract_cell_value true (.dict [("timestamp_value", .str "2024-01-01")]) =
      .ok (.timestamp (.str "2024-01-01")) ∧
    extract_cell_value false (.dict [("timestamp_value", .str "2024-01-01")]) =
      .ok (.str "2024-01-01") := by
  constructor
  · exact timestamp_decoding_follows_capability true _ _ rfl rfl rfl rfl rfl
  · exact timestamp_decoding_follows_capability false _ _ rfl rfl rfl rfl rfl

/-- Claim C3 counterexample: with pandas available, the plain-dict output
operation `to_dict` does NOT leave a `timestamp_value` cell as the raw
literal — it decodes it to a native timestamp, exactly as the
table-producing operation would. -/
theorem to_dict_timestamp_not_raw :
    to_dict (fun _ => .error "unused") true
      (mkQueryResult (.dict
        [("schema", .dict [("fields", .list [.dict [("name", .str "t")]])]),
         ("data", .dict [("array_value", .list
           [.dict [("record_value", .list [.dict [("timestamp_value", .str "2024-01-01")]])]])])])) =
      .ok [[(.str "t", .timestamp (.str "2024-01-01"))]] ∧
    to_dict (fun _ => .error "unused") true
      (mkQueryResult (.dict
        [("schema", .dict [("fields", .list [.dict [("name", .str "t")]])]),
         ("data", .dict [("array_value", .list
           [.dict [("record_value", .list [.dict [("timestamp_value", .str "2024-01-01")]])]])])])) ≠
      .ok [[(.str "t", .str "2024-01-01")]] := by
  refine ⟨rfl, ?_⟩
  intro h
  rw [show to_dict (fun _ => .error "unused") true
      (mkQueryResult (.dict
        [("schema", .dict [("fields", .list [.dict [("name", .str "t")]])]),
         ("data", .dict [("array_value", .list
           [.dict [("record_value", .list [.dict [("timestamp_value", .str "2024-01-01")]])]])])])) =
      .ok [[(.str "t", .timestamp (.str "2024-01-01"))]] from rfl] at h
  simp at h

/-- Mapping the extractor with the inner fuel of a dict cell over an
iterated payload agrees with mapping `extract_cell_value` itself. -/
theorem mapExcept_extract_payload {kvs : List (String × PyVal)} {k : String} {p : PyVal}
    {items : List PyVal} (pdA : Bool) (hp : dictLookup kvs k = some p)
    (hit : pyIter p = .ok items) :
    mapExcept (extractCellValueF pdA (pyRank (.dict kvs))) items =
      mapExcept (extract_cell_value pdA) items := by
  refine mapExcept_congr (fun x hx => ?_)
  exact extractCellValueF_eq_extract pdA (pyRank_payload_item_lt hp hit hx)

/-- Claim C5: the cell extractor dispatches on the first matching tag in
source order (`string_value`, `number_value`, `bool_value`, `null_value`,
`timestamp_value`, `date_value`, `array_value`, `record_value`),
`null_value` decodes to `None` whatever its payload, the nested tags
recurse per element without reconstructing field names, and a cell with
none of the tags is returned unchanged — an `.ok` result, never an
exception. -/
theorem extract_cell_value_dispatch (pdA : Bool) (kvs : List (String × PyVal)) :
    (∀ v, dictLookup kvs "string_value" = some v →
      extract_cell_value pdA (.dict kvs) = .ok v)
    ∧ (hasKey kvs "string_value" = false →
       ∀ v, dictLookup kvs "number_value" = some v →
      extract_cell_value pdA (.dict kvs) = .ok v)
    ∧ (hasKey kvs "string_value" = false →
       hasKey kvs "number_value" = false →
       ∀ v, dictLookup kvs "bool_value" = some v →
      extract_cell_value pdA (.dict kvs) = .ok v)
    ∧ (hasKey kvs "string_value" = false →
       hasKey kvs "number_value" = false →
       hasKey kvs "bool_value" = false →
       ∀ v, dictLookup kvs "null_value" = some v →
      extract_cell_value pdA (.dict kvs) = .ok .none)
    ∧ (hasKey kvs "string_value" = false →
       hasKey kvs "number_value" = false →
       hasKey kvs "bool_value" = false →
       hasKey kvs "null_value" = false →
       ∀ v, dictLookup kvs "timestamp_value" = some v →
      extract_cell_value pdA (.dict kvs) = .ok (if pdA then .timestamp v else v))
    ∧ (hasKey kvs "string_value" = false →
       hasKey kvs "number_value" = false →
       hasKey kvs "bool_value" = false →
       hasKey kvs "null_value" = false →
       hasKey kvs "timestamp_value" = false →
       ∀ v, dictLookup kvs "date_value" = some v →
      extract_cell_value pdA (.dict kvs) = .ok v)
    ∧ (hasKey kvs "string_value" = false →
       hasKey kvs "number_value" = false →
       hasKey kvs "bool_value" = false →
       hasKey kvs "null_value" = false →
       hasKey kvs "timestamp_value" = false →
       hasKey kvs "date_value" = false →
       ∀ xs, dictLookup kvs "array_value" = some (.list xs) →
      extract_cell_value pdA (.dict kvs) =
        (mapExcept (extract_cell_value pdA) xs).map PyVal.list)
    ∧ (hasKey kvs "string_value" = false →
       hasKey kvs "number_value" = false →
       hasKey kvs "bool_value" = false →
       hasKey kvs "null_value" = false →
       hasKey kvs "timestamp_value" = false →
       hasKey kvs "date_value" = false →
       hasKey kvs "array_value" = false →
       ∀ xs, dictLookup kvs "record_value" = some (.list xs) →
      extract_cell_value pdA (.dict kvs) =
        (mapExcept (extract_cell_value pdA) xs).map PyVal.list)
    ∧ (hasKey kvs "string_value" = false →
       hasKey kvs "number_value" = false →
       hasKey kvs "bool_value" = false →
       hasKey kvs "null_value" = false →
       hasKey kvs "timestamp_value" = false →
       hasKey kvs "date_value" = false →
       hasKey kvs "array_value" = false →
       hasKey kvs "record_value" = false →
      extract_cell_value pdA (.dict kvs) = .ok (.dict kvs)) := by
  refine ⟨?_, ?_, ?_, ?_, ?_, ?_, ?_, ?_, ?_⟩
  · intro v hv
    have h : hasKey kvs "string_value" = true := by simp [hasKey, hv]
    show extractCellValueF pdA (pyRank (.dict kvs) + 1) (.dict kvs) = _
    simp [extractCellValueF, h, dictGetD, hv]
  · intro h1 v hv
    have h : hasKey kvs "number_value" = true := by simp [hasKey, hv]
    show extractCellValueF pdA (pyRank (.dict kvs) + 1) (.dict kvs) = _
    simp [extractCellValueF, h1, h, dictGetD, hv]
  · intro h1 h2 v hv
    have h : hasKey kvs "bool_value" = true := by simp [hasKey, hv]
    show extractCellValueF pdA (pyRank (.dict kvs) + 1) (.dict kvs) = _
    simp [extractCellValueF, h1, h2, h, dictGetD, hv]
  · intro h1 h2 h3 v hv
    have h : hasKey kvs "null_value" = true := by simp [hasKey, hv]
    show extractCellValueF pdA (pyRank (.dict kvs) + 1) (.dict kvs) = _
    simp [extractCellValueF, h1, h2, h3, h, dictGetD, hv]
  · exact fun h1 h2 h3 h4 v hv =>
      timestamp_decoding_follows_capability pdA kvs v h1 h2 h3 h4 hv
  · intro h1 h2 h3 h4 h5 v hv
    have h : hasKey kvs "date_value" = true := by simp [hasKey, hv]
    show extractCellValueF pdA (pyRank (.dict kvs) + 1) (.dict kvs) = _
    simp [extractCellValueF, h1, h2, h3, h4, h5, h, dictGetD, hv]
  · intro h1 h2 h3 h4 h5 h6 xs hv
    have h : hasKey kvs "array_value" = true := by simp [hasKey, hv]
    have hme := mapExcept_extract_payload pdA hv (rfl : pyIter (.list xs) = .ok xs)
    show extractCellValueF pdA (pyRank (.dict kvs) + 1) (.dict kvs) = _
    rw [extractF_dict_succ]
    simp only [h1, h2, h3, h4, h5, h6, h, Bool.false_eq_true, if_false, if_true]
    rw [show dictGetD kvs "array_value" .none = .list xs by simp [dictGetD, hv]]
    show (match mapExcept (extractCellValueF pdA (pyRank (.dict kvs))) xs with
          | Except.error e => Except.error e
          | Except.ok vs => Except.ok (PyVal.list vs)) = _
    rw [hme]
    cases mapExcept (extract_cell_value pdA) xs <;> rfl
  · intro h1 h2 h3 h4 h5 h6 h7 xs hv
    have h : hasKey kvs "record_value" = true := by simp [hasKey, hv]
    have hme := mapExcept_extract_payload pdA hv (rfl : pyIter (.list xs) = .ok xs)
    show extractCellValueF pdA (pyRank (.dict kvs) + 1) (.dict kvs) = _
    rw [extractF_dict_succ]
    simp only [h1, h2, h3, h4, h5, h6, h7, h, Bool.false_eq_true, if_false, if_true]
    rw [show dictGetD kvs "record_value" .none = .list xs by simp [dictGetD, hv]]
    show (match mapExcept (extractCellValueF pdA (pyRank (.dict kvs))) xs with
          | Except.error e => Except.error e
          | Except.ok vs => Except.ok (PyVal.list vs)) = _
    rw [hme]
    cases mapExcept (extract_cell_value pdA) xs <;> rfl
  · intro h1 h2 h3 h4 h5 h6 h7 h8
    show extractCellValueF pdA (pyRank (.dict kvs) + 1) (.dict kvs) = _
    simp [extractCellValueF, h1, h2, h3, h4, h5, h6, h7, h8]

/-- Witness for `extract_cell_value_dispatch`: a cell carrying both a
`number_value` and a later `string_value` tag decodes to the
`string_value` (first match wins), a `null_value` cell with a non-null
payload decodes to `None`, and an unrecognized cell comes back unchanged. -/
theorem extract_cell_value_dispatch_witness :
    extract_cell_value true (.dict [("number_value", .num 7), ("string_value", .str "s")]) =
      .ok (.str "s") ∧
    extract_cell_value true (.dict [("null_value", .str "odd")]) = .ok .none ∧
    extract_cell_value true (.dict [("mystery", .num 1)]) = .ok (.dict [("mystery", .num 1)]) := by
  refine ⟨?_, ?_, ?_⟩
  · exact (extract_cell_value_dispatch true
      [("number_value", .num 7), ("string_value", .str "s")]).1 (.str "s") rfl
  · exact (extract_cell_value_dispatch true
      [("null_value", .str "odd")]).2.2.2.1 rfl rfl rfl (.str "odd") rfl
  · exact (extract_cell_value_dispatch true
      [("mystery", .num 1)]).2.2.2.2.2.2.2.2 rfl rfl rfl rfl rfl rfl rfl rfl

/-- Claim C6: a nested `record_value` cell is decoded exactly as the
corresponding `array_value` cell — element-wise recursion with no
reconstruction of field names. -/
theorem record_value_decodes_as_array_value (pdA : Bool) (cs : List PyVal) :
    extract_cell_value pdA (.dict [("record_value", .list cs)]) =
      extract_cell_value pdA (.dict [("array_value", .list cs)]) := rfl

theorem parse_dict_ok (loads : String → Except String PyVal) (pkvs : List (String × PyVal)) :
    parse_malloy_result loads (.dict pkvs) = .ok (.dict pkvs) := rfl

/-- Claim C2 (amended): a string input whose deserialization fails with a
syntax error makes all three operations fail with a `MalloyResultError`
wrapping the underlying parse error (for `to_dataframe`, granted the
pandas capability, whose check precedes parsing).  A string that
deserializes to a non-mapping value is NOT turned into a
`MalloyResultError`: it escapes as an uncaught `AttributeError` (see
`wrong_type_not_malloy_error`). -/
theorem malformed_input_wrapped (loads : String → Except String PyVal) (s e : String)
    (pdA : Bool) (hl : loads s = .error e) :
    to_dict loads pdA (mkQueryResult (.str s)) =
      .error (.malloyResultError ("Failed to parse Malloy result: " ++ e)) ∧
    to_dataframe loads true (mkQueryResult (.str s)) =
      .error (.malloyResultError ("Failed to parse Malloy result: " ++ e)) ∧
    get_schema loads pdA (mkQueryResult (.str s)) =
      .error (.malloyResultError ("Failed to parse Malloy result: " ++ e)) := by
  refine ⟨?_, ?_, ?_⟩
  · simp [to_dict, getResultAttr_mk, parse_malloy_result, hl]
  · simp [to_dataframe, getResultAttr_mk, parse_malloy_result, hl]
  · simp [get_schema, getResultAttr_mk, parse_malloy_result, hl]

/-- Witness for `malformed_input_wrapped` on the malformed document
`"invalid json"` with the failing deserializer. -/
theorem malformed_input_wrapped_witness :
    to_dict (loadsFailing "Expecting value: line 1 column 1 (char 0)") true
      (mkQueryResult (.str "invalid json")) =
    .error (.malloyResultError
      "Failed to parse Malloy result: Expecting value: line 1 column 1 (char 0)") :=
  (malformed_input_wrapped (loadsFailing "Expecting value: line 1 column 1 (char 0)")
    "invalid json" "Expecting value: line 1 column 1 (char 0)" true rfl).1

/-- Claim C2 counterexample: the string `"42"` deserializes successfully
to the integer `42` (not a mapping), and all three operations then die
with an uncaught `AttributeError` from `parsed.get(...)` — not with a
`MalloyResultError`. -/
theorem wrong_type_not_malloy_error :
    to_dict loadsNum42 true (mkQueryResult (.str "42")) =
      .error (.attributeError "object has no attribute get") ∧
    to_dataframe loadsNum42 true (mkQueryResult (.str "42")) =
      .error (.attributeError "object has no attribute get") ∧
    get_schema loadsNum42 true (mkQueryResult (.str "42")) =
      .error (.attributeError "object has no attribute get") := ⟨rfl, rfl, rfl⟩

/-- Claim C8: when `schema` is absent from the parsed result, or is a
mapping without a `fields` key, all three operations fail with the same
missing-schema `MalloyResultError` (for `to_dataframe`, granted pandas,
whose capability check comes first). -/
theorem missing_schema_all_three (loads : String → Except String PyVal) (pdA : Bool)
    (pkvs : List (String × PyVal))
    (hs : dictLookup pkvs "schema" = Option.none ∨
      ∃ skvs, dictLookup pkvs "schema" = some (.dict skvs) ∧ hasKey skvs "fields" = false) :
    to_dict loads pdA (mkQueryResult (.dict pkvs)) =
      .error (.malloyResultError "Result missing schema information") ∧
    to_dataframe loads true (mkQueryResult (.dict pkvs)) =
      .error (.malloyResultError "Result missing schema information") ∧
    get_schema loads pdA (mkQueryResult (.dict pkvs)) =
      .error (.malloyResultError "Result missing schema information") := by
  rcases hs with hs | ⟨skvs, hs, hf⟩
  · have hget : dictGetD pkvs "schema" (.dict []) = .dict [] := by simp [dictGetD, hs]
    refine ⟨?_, ?_, ?_⟩
    · simp [to_dict, getResultAttr_mk, parse_dict_ok, pyGet, hget, truthy]
    · simp [to_dataframe, getResultAttr_mk, parse_dict_ok, pyGet, hget, truthy]
    · simp [get_schema, getResultAttr_mk, parse_dict_ok, pyGet, hget, truthy]
  · have hget : dictGetD pkvs "schema" (.dict []) = .dict skvs := by simp [dictGetD, hs]
    cases skvs with
    | nil =>
      refine ⟨?_, ?_, ?_⟩
      · simp [to_dict, getResultAttr_mk, parse_dict_ok, pyGet, hget, truthy]
      · simp [to_dataframe, getResultAttr_mk, parse_dict_ok, pyGet, hget, truthy]
      · simp [get_schema, getResultAttr_mk, parse_dict_ok, pyGet, hget, truthy]
    | cons kv rest =>
      refine ⟨?_, ?_, ?_⟩
      · simp [to_dict, getResultAttr_mk, parse_dict_ok, pyGet, hget, truthy, tagCheck, hf]
      · simp [to_dataframe, getResultAttr_mk, parse_dict_ok, pyGet, hget, truthy, tagCheck, hf]
      · simp [get_schema, getResultAttr_mk, parse_dict_ok, pyGet, hget, truthy, tagCheck, hf]

/-- Witness for `missing_schema_all_three` with a parsed result holding
only a `data` key. -/
theorem missing_schema_all_three_witness :
    to_dict (fun _ => .error "unused") true
      (mkQueryResult (.dict [("data", .dict [("array_value", .list [])])])) =
    .error (.malloyResultError "Result missing schema information") :=
  (missing_schema_all_three (fun _ => .error "unused") true
    [("data", .dict [("array_value", .list [])])] (Or.inl rfl)).1

/-- Claim C9 (amended): with the pandas capability unavailable,
`decode_to_table` fails on every input with the guidance message naming
pandas and how to install it; `decode_schema` is unaffected by the
capability; but `decode_to_rows` is NOT unaffected — it decodes
`timestamp_value` cells to native timestamps exactly when the capability
is present. -/
theorem capability_absence_behavior :
    (∀ (loads : String → Except String PyVal) (qr : QueryResult),
      to_dataframe loads false qr =
        .error (.malloyResultError
          "pandas is required for DataFrame conversion. Install it with: pip install pandas")) ∧
    (∀ (loads : String → Except String PyVal) (pd1 pd2 : Bool) (qr : QueryResult),
      get_schema loads pd1 qr = get_schema loads pd2 qr) ∧
    to_dict (fun _ => .error "unused") true tsQueryResult =
      .ok [[(.str "t", .timestamp (.str "2024-01-01"))]] ∧
    to_dict (fun _ => .error "unused") false tsQueryResult =
      .ok [[(.str "t", .str "2024-01-01")]] :=
  ⟨fun _ _ => rfl, fun _ _ _ _ => rfl, rfl, rfl⟩

/-- Claim C9 counterexample: `to_dict` does not behave identically with
and without the pandas capability — on a timestamp cell the two runs
disagree. -/
theorem to_dict_depends_on_capability :
    to_dict (fun _ => .error "unused") true tsQueryResult ≠
      to_dict (fun _ => .error "unused") false tsQueryResult := by
  intro h
  rw [show to_dict (fun _ => .error "unused") true tsQueryResult =
      .ok [[(.str "t", .timestamp (.str "2024-01-01"))]] from rfl,
    show to_dict (fun _ => .error "unused") false tsQueryResult =
      .ok [[(.str "t", .str "2024-01-01")]] from rfl] at h
  simp at h

/-- The two copies of the inner row loop (in `to_dict` and in
`to_dataframe`) are the same function. -/
theorem rowDictDf_eq_rowDictDict (pdA : Bool) (fns : List PyVal) :
    ∀ (cells : List PyVal) (idx : Nat) (acc : Row),
      rowDictDf pdA fns cells idx acc = rowDictDict pdA fns cells idx acc := by
  intro cells
  induction cells with
  | nil => intro idx acc; rfl
  | cons c rest ih =>
    intro idx acc
    simp only [rowDictDf, rowDictDict]
    by_cases h : idx < fns.length
    · simp only [dif_pos h]
      cases extract_cell_value pdA c with
      | error e => rfl
      | ok v =>
        show (match pySetItem acc (fns.get ⟨idx, h⟩) v with
              | Except.error e => Except.error e
              | Except.ok rd => rowDictDf pdA fns rest (idx + 1) rd) =
            (match pySetItem acc (fns.get ⟨idx, h⟩) v with
              | Except.error e => Except.error e
              | Except.ok rd => rowDictDict pdA fns rest (idx + 1) rd)
        cases pySetItem acc (fns.get ⟨idx, h⟩) v with
        | error e => rfl
        | ok rd => exact ih (idx + 1) rd
    · simp only [dif_neg h]
      exact ih (idx + 1) acc

/-- Row invariant for the positional-zip lemma: no upcoming field name is
already a key of the accumulated row dict. -/
theorem rowDict_zip_aux (pdA : Bool) (names : List String) (hnd : names.Nodup) :
    ∀ (cells : List PyVal) (idx : Nat) (acc : Row) (vals : List PyVal),
      (∀ j (hj : j < names.length), idx ≤ j →
        acc.any (fun kv => pyEqb kv.1 (.str names[j])) = false) →
      mapExcept (extract_cell_value pdA) (cells.take (names.length - idx)) = .ok vals →
      rowDictDict pdA (names.map .str) cells idx acc =
        .ok (acc ++ ((names.drop idx).map PyVal.str).zip vals) := by
  intro cells
  induction cells with
  | nil =>
    intro idx acc vals _ hvals
    simp only [List.take_nil, mapExcept, Except.ok.injEq] at hvals
    subst hvals
    simp [rowDictDict, List.zip_nil_right]
  | cons c rest ih =>
    intro idx acc vals hfresh hvals
    by_cases hidx : idx < names.length
    · have hsub : names.length - idx = (names.length - (idx + 1)) + 1 := by omega
      rw [hsub, List.take_succ_cons] at hvals
      simp only [mapExcept] at hvals
      cases hc : extract_cell_value pdA c with
      | error e => rw [hc] at hvals; cases hvals
      | ok v =>
        rw [hc] at hvals
        cases hrest : mapExcept (extract_cell_value pdA) (rest.take (names.length - (idx + 1))) with
        | error e => rw [hrest] at hvals; cases hvals
        | ok vs =>
          rw [hrest] at hvals
          injection hvals with hvals
          subst hvals
          have hlen : idx < (names.map PyVal.str).length := by simpa using hidx
          have hkey : (names.map PyVal.str).get ⟨idx, hlen⟩ = PyVal.str names[idx] := by
            simp
          have hany : (acc.any fun kv => pyEqb kv.1 (PyVal.str names[idx])) = false :=
            hfresh idx hidx le_rfl
          have hset : pySetItem acc ((names.map PyVal.str).get ⟨idx, hlen⟩) v =
              .ok (acc ++ [(PyVal.str names[idx], v)]) := by
            rw [hkey]
            simp only [pySetItem, hany, pyHashable]
            simp
          have hfresh2 : ∀ j (hj : j < names.length), idx + 1 ≤ j →
              ((acc ++ [(PyVal.str names[idx], v)]).any
                (fun kv => pyEqb kv.1 (.str names[j]))) = false := by
            intro j hj hij
            rw [List.any_append]
            have h1 := hfresh j hj (by omega)
            have h2 : pyEqb (PyVal.str names[idx]) (PyVal.str names[j]) = false := by
              simp only [pyEqb, beq_eq_false_iff_ne, ne_eq]
              intro hcontr
              have : idx = j := (hnd.getElem_inj_iff).mp hcontr
              omega
            simp [h1, h2]
          have hih := ih (idx + 1) (acc ++ [(PyVal.str names[idx], v)]) vs hfresh2 hrest
          simp only [rowDictDict]
          rw [dif_pos hlen]
          simp only [hc, hset, hih]
          rw [List.drop_eq_getElem_cons hidx]
          simp only [List.append_assoc, List.singleton_append, List.map_cons, Except.ok.injEq]
          congr 1
    · have hsub : names.length - idx = 0 := by omega
      rw [hsub, List.take_zero] at hvals
      simp only [mapExcept, Except.ok.injEq] at hvals
      subst hvals
      have hdrop : names.drop idx = [] := List.drop_eq_nil_of_le (by omega)
      have hlen : ¬ idx < (names.map PyVal.str).length := by simpa using hidx
      have hih := ih (idx + 1) acc []
        (fun j hj hij => hfresh j hj (by omega))
        (by rw [show names.length - (idx + 1) = 0 by omega, List.take_zero]; rfl)
      simp only [rowDictDict]
      rw [dif_neg hlen, hih]
      have hdrop2 : names.drop (idx + 1) = [] := List.drop_eq_nil_of_le (by omega)
      simp [hdrop, hdrop2]

/-- Claim C7: the row mapping of a non-skipped row is the positional zip
of the schema field names with the decoded cell values — for distinct
field names, both row loops produce exactly
`zip field_names decoded_values`, so a row with fewer cells than fields
ends without the trailing field names (not null-filled), and extra cells
beyond the field count are ignored (never even decoded). -/
theorem row_mapping_is_positional_zip (pdA : Bool) (names : List String)
    (cells vals : List PyVal) (hnd : names.Nodup)
    (hvals : mapExcept (extract_cell_value pdA) (cells.take names.length) = .ok vals) :
    rowDictDict pdA (names.map PyVal.str) cells 0 [] =
      .ok ((names.map PyVal.str).zip vals) ∧
    rowDictDf pdA (names.map PyVal.str) cells 0 [] =
      .ok ((names.map PyVal.str).zip vals) := by
  have h := rowDict_zip_aux pdA names hnd cells 0 [] vals
    (fun j hj hij => rfl)
    (by simpa using hvals)
  simp only [List.drop_zero, List.nil_append] at h
  exact ⟨h, by rw [rowDictDf_eq_rowDictDict]; exact h⟩

/-- Witness for `row_mapping_is_positional_zip`: three fields and two
cells give a two-key row (trailing field absent); one field and two cells
give a one-key row (extra cell ignored). -/
theorem row_mapping_is_positional_zip_witness :
    rowDictDict true [.str "a", .str "b", .str "c"]
      [.dict [("number_value", .num 1)], .dict [("string_value", .str "x")]] 0 [] =
      .ok [(.str "a", .num 1), (.str "b", .str "x")] ∧
    rowDictDict true [.str "a"]
      [.dict [("number_value", .num 1)], .dict [("string_value", .str "x")]] 0 [] =
      .ok [(.str "a", .num 1)] := by
  constructor
  · exact (row_mapping_is_positional_zip true ["a", "b", "c"]
      [.dict [("number_value", .num 1)], .dict [("string_value", .str "x")]]
      [.num 1, .str "x"] (by decide) rfl).1
  · exact (row_mapping_is_positional_zip true ["a"]
      [.dict [("number_value", .num 1)], .dict [("string_value", .str "x")]]
      [.num 1] (by decide) rfl).1

/-- The two copies of the outer row loop are the same function. -/
theorem buildRowsDf_eq_buildRowsDict (pdA : Bool) (fns : List PyVal) :
    ∀ (rl : List PyVal), buildRowsDf pdA fns rl = buildRowsDict pdA fns rl := by
  intro rl
  induction rl with
  | nil => rfl
  | cons r rest ih =>
    simp only [buildRowsDf, buildRowsDict, rowDictDf_eq_rowDictDict, ih]

theorem mapExceptRows_ok_length {f : PyVal → Except PyErr Row} :
    ∀ {xs : List PyVal} {ys : List Row}, mapExceptRows f xs = .ok ys → ys.length = xs.length := by
  intro xs
  induction xs with
  | nil =>
    intro ys h
    simp only [mapExceptRows, Except.ok.injEq] at h
    subst h
    rfl
  | cons x rest ih =>
    intro ys h
    simp only [mapExceptRows] at h
    cases hf : f x with
    | error e => rw [hf] at h; cases h
    | ok r =>
      rw [hf] at h
      cases hrest : mapExceptRows f rest with
      | error e => rw [hrest] at h; cases h
      | ok rs =>
        rw [hrest] at h
        injection h with h
        subst h
        simp [ih hrest]

/-- The outer row loop of `to_dict` materializes exactly the rows that
carry a `record_value` key, in order, skipping the others. -/
theorem buildRowsDict_eq_filter (pdA : Bool) (fns : List PyVal) :
    ∀ (rl : List PyVal), rl.all isDictB = true →
      buildRowsDict pdA fns rl =
        mapExceptRows (materializeRowDict pdA fns) (rl.filter rowHasRecordValue) := by
  intro rl
  induction rl with
  | nil => intro _; rfl
  | cons r rest ih =>
    intro hall
    simp only [List.all_cons, Bool.and_eq_true] at hall
    obtain ⟨hr, hrest⟩ := hall
    cases r with
    | str s => simp [isDictB] at hr
    | num n => simp [isDictB] at hr
    | bool b => simp [isDictB] at hr
    | none => simp [isDictB] at hr
    | list xs => simp [isDictB] at hr
    | timestamp v => simp [isDictB] at hr
    | dict kvs =>
      by_cases hk : hasKey kvs "record_value" = true
      · rcases hasKey_dictLookup hk with ⟨p, hp⟩
        have hsub : pySubscript (.dict kvs) "record_value" = .ok p := by
          simp [pySubscript, hp]
        simp only [buildRowsDict, List.filter_cons, rowHasRecordValue, hk, if_true,
          mapExceptRows, materializeRowDict, tagCheck, hsub]
        cases hit : pyIter p with
        | error e => rfl
        | ok cells =>
          cases hrd : rowDictDict pdA fns cells 0 [] with
          | error e => simp only [hrd]
          | ok rd => simp only [hrd, ih hrest]
      · have hkf : hasKey kvs "record_value" = false := by
          cases h : hasKey kvs "record_value" with
          | false => rfl
          | true => exact absurd h hk
        simp only [buildRowsDict, List.filter_cons, rowHasRecordValue, hkf, tagCheck,
          Bool.false_eq_true, if_false]
        exact ih hrest

/-- Claim C1: for a valid parsed result (schema with fields present, rows
all mappings), a successful `to_dict` returns exactly one row dict per
element of `data.array_value` that carries a `record_value` key — the
materializations of the filtered rows in order — and skipped rows
contribute nothing. -/
theorem decode_to_rows_matches_record_rows
    (loads : String → Except String PyVal) (pdA : Bool)
    (pkvs skvs dkvs : List (String × PyVal)) (fns : List PyVal) (rl : List PyVal)
    (out : List Row)
    (hs : dictLookup pkvs "schema" = some (.dict skvs))
    (hf : hasKey skvs "fields" = true)
    (hd : dictLookup pkvs "data" = some (.dict dkvs))
    (ha : dictLookup dkvs "array_value" = some (.list rl))
    (hall : rl.all isDictB = true)
    (hfn : fieldNamesOf (.dict skvs) = .ok fns)
    (hok : to_dict loads pdA (mkQueryResult (.dict pkvs)) = .ok out) :
    out.length = rl.countP rowHasRecordValue ∧
    mapExceptRows (materializeRowDict pdA fns) (rl.filter rowHasRecordValue) = .ok out := by
  have hsg : dictGetD pkvs "schema" (.dict []) = .dict skvs := by simp [dictGetD, hs]
  have hdg : dictGetD pkvs "data" (.dict []) = .dict dkvs := by simp [dictGetD, hd]
  have htr : truthy (.dict skvs) = true := truthy_of_hasKey hf
  have hak : hasKey dkvs "array_value" = true := by simp [hasKey, ha]
  have htd : truthy (.dict dkvs) = true := truthy_of_hasKey hak
  have hsub : pySubscript (.dict dkvs) "array_value" = .ok (.list rl) := by
    simp [pySubscript, ha]
  simp only [to_dict, getResultAttr_mk, parse_dict_ok, pyGet, hsg, hdg, htr, htd,
    tagCheck, hf, hak, hfn, hsub, pyIter, Bool.not_true, Bool.false_eq_true, if_false] at hok
  rw [buildRowsDict_eq_filter pdA fns rl hall] at hok
  refine ⟨?_, hok⟩
  rw [mapExceptRows_ok_length hok, List.countP_eq_length_filter]

/-- Witness for `decode_to_rows_matches_record_rows`: two record rows
around a skipped row give exactly two output rows, in order. -/
theorem decode_to_rows_matches_record_rows_witness :
    ([[(PyVal.str "name", PyVal.str "Alice"), (.str "count", .num 10)],
      [(.str "name", .str "Bob"), (.str "count", .num 20)]] : List Row).length =
      ([PyVal.dict [("record_value", .list [.dict [("string_value", .str "Alice")],
          .dict [("number_value", .num 10)]])],
        PyVal.dict [],
        PyVal.dict [("record_value", .list [.dict [("string_value", .str "Bob")],
          .dict [("number_value", .num 20)]])]].countP rowHasRecordValue) ∧
    mapExceptRows (materializeRowDict true [.str "name", .str "count"])
      ([PyVal.dict [("record_value", .list [.dict [("string_value", .str "Alice")],
          .dict [("number_value", .num 10)]])],
        PyVal.dict [],
        PyVal.dict [("record_value", .list [.dict [("string_value", .str "Bob")],
          .dict [("number_value", .num 20)]])]].filter rowHasRecordValue) =
      .ok [[(.str "name", .str "Alice"), (.str "count", .num 10)],
           [(.str "name", .str "Bob"), (.str "count", .num 20)]] :=
  decode_to_rows_matches_record_rows (fun _ => .error "unused") true
    [("schema", .dict [("fields", .list [.dict [("name", .str "name")], .dict [("name", .str "count")]])]),
     ("data", .dict [("array_value", .list
       [.dict [("record_value", .list [.dict [("string_value", .str "Alice")], .dict [("number_value", .num 10)]])],
        .dict [],
        .dict [("record_value", .list [.dict [("string_value", .str "Bob")], .dict [("number_value", .num 20)]])]])])]
    [("fields", .list [.dict [("name", .str "name")], .dict [("name", .str "count")]])]
    [("array_value", .list
       [.dict [("record_value", .list [.dict [("string_value", .str "Alice")], .dict [("number_value", .num 10)]])],
        .dict [],
        .dict [("record_value", .list [.dict [("string_value", .str "Bob")], .dict [("number_value", .num 20)]])]])]
    [.str "name", .str "count"]
    [.dict [("record_value", .list [.dict [("string_value", .str "Alice")], .dict [("number_value", .num 10)]])],
     .dict [],
     .dict [("record_value", .list [.dict [("string_value", .str "Bob")], .dict [("number_value", .num 20)]])]]
    [[(.str "name", .str "Alice"), (.str "count", .num 10)],
     [(.str "name", .str "Bob"), (.str "count", .num 20)]]
    rfl rfl rfl rfl rfl rfl rfl

/-- A row list in which every row is a mapping without a `record_value`
key materializes to no rows at all. -/
theorem buildRowsDf_all_skipped (pdA : Bool) (fns : List PyVal) :
    ∀ (rl : List PyVal), rl.all (fun r => isDictB r && !rowHasRecordValue r) = true →
      buildRowsDf pdA fns rl = .ok [] := by
  intro rl
  induction rl with
  | nil => intro _; rfl
  | cons r rest ih =>
    intro hall
    simp only [List.all_cons, Bool.and_eq_true] at hall
    obtain ⟨⟨hr, hk⟩, hrest⟩ := hall
    cases r with
    | str s => simp [isDictB] at hr
    | num n => simp [isDictB] at hr
    | bool b => simp [isDictB] at hr
    | none => simp [isDictB] at hr
    | list xs => simp [isDictB] at hr
    | timestamp v => simp [isDictB] at hr
    | dict kvs =>
      have hkf : hasKey kvs "record_value" = false := by
        simpa [rowHasRecordValue] using hk
      simp only [buildRowsDf, tagCheck, hkf]
      exact ih hrest

theorem mapExcept_ok_length {f : PyVal → Except PyErr PyVal} :
    ∀ {xs ys : List PyVal}, mapExcept f xs = .ok ys → ys.length = xs.length := by
  intro xs
  induction xs with
  | nil =>
    intro ys h
    simp only [mapExcept, Except.ok.injEq] at h
    subst h
    rfl
  | cons x rest ih =>
    intro ys h
    simp only [mapExcept] at h
    cases hf : f x with
    | error e => rw [hf] at h; cases h
    | ok r =>
      rw [hf] at h
      cases hrest : mapExcept f rest with
      | error e => rw [hrest] at h; cases h
      | ok rs =>
        rw [hrest] at h
        injection h with h
        subst h
        simp [ih hrest]

theorem mapExceptRows_mem {f : PyVal → Except PyErr Row} :
    ∀ {xs : List PyVal} {ys : List Row}, mapExceptRows f xs = .ok ys →
      ∀ y ∈ ys, ∃ x ∈ xs, f x = .ok y := by
  intro xs
  induction xs with
  | nil =>
    intro ys h y hy
    simp only [mapExceptRows, Except.ok.injEq] at h
    subst h
    cases hy
  | cons x rest ih =>
    intro ys h y hy
    simp only [mapExceptRows] at h
    cases hf : f x with
    | error e => rw [hf] at h; cases h
    | ok r =>
      rw [hf] at h
      cases hrest : mapExceptRows f rest with
      | error e => rw [hrest] at h; cases h
      | ok rs =>
        rw [hrest] at h
        injection h with h
        subst h
        rcases List.mem_cons.mp hy with hy | hy
        · exact ⟨x, List.mem_cons_self x rest, hy ▸ hf⟩
        · obtain ⟨x2, hx2, hfx2⟩ := ih hrest y hy
          exact ⟨x2, List.mem_cons_of_mem x hx2, hfx2⟩

/-- A successful fold of a record into a row dict implies that decoding
the cells it actually consumed succeeded. -/
theorem rowDictDict_ok_extracts (pdA : Bool) (fns : List PyVal) :
    ∀ (cells : List PyVal) (idx : Nat) (acc : Row) (rd : Row),
      rowDictDict pdA fns cells idx acc = .ok rd →
      ∃ vals, mapExcept (extract_cell_value pdA) (cells.take (fns.length - idx)) = .ok vals := by
  intro cells
  induction cells with
  | nil => intro idx acc rd _; exact ⟨[], by simp [mapExcept]⟩
  | cons c rest ih =>
    intro idx acc rd h
    by_cases hidx : idx < fns.length
    · simp only [rowDictDict] at h
      rw [dif_pos hidx] at h
      cases hc : extract_cell_value pdA c with
      | error e => simp only [hc] at h; exact Except.noConfusion h
      | ok v =>
        simp only [hc] at h
        cases hset : pySetItem acc (fns.get ⟨idx, hidx⟩) v with
        | error e => simp only [hset] at h; exact Except.noConfusion h
        | ok acc2 =>
          simp only [hset] at h
          obtain ⟨vals, hvals⟩ := ih (idx + 1) acc2 rd h
          refine ⟨v :: vals, ?_⟩
          rw [show fns.length - idx = (fns.length - (idx + 1)) + 1 by omega,
            List.take_succ_cons]
          simp only [mapExcept, hc, hvals]
    · refine ⟨[], ?_⟩
      rw [show fns.length - idx = 0 by omega, List.take_zero]
      rfl

/-- A materialized row whose record supplies at least as many cells as
there are (distinct) field names has exactly the field names as keys, in
order. -/
theorem materialize_full_row_keys (pdA : Bool) (names : List String) (hnd : names.Nodup)
    (kvs : List (String × PyVal)) (cells : List PyVal) (rd : Row)
    (hp : dictLookup kvs "record_value" = some (.list cells))
    (hlen : names.length ≤ cells.length)
    (hok : materializeRowDict pdA (names.map PyVal.str) (.dict kvs) = .ok rd) :
    rd.map Prod.fst = names.map PyVal.str := by
  have hsub : pySubscript (.dict kvs) "record_value" = .ok (.list cells) := by
    simp [pySubscript, hp]
  simp only [materializeRowDict, hsub, pyIter] at hok
  obtain ⟨vals, hvals⟩ :=
    rowDictDict_ok_extracts pdA (names.map PyVal.str) cells 0 [] rd hok
  simp only [List.length_map, Nat.sub_zero] at hvals
  have hzip := rowDict_zip_aux pdA names hnd cells 0 [] vals
    (fun j hj hij => rfl) (by simpa using hvals)
  rw [hok] at hzip
  injection hzip with hzip
  have hvlen : vals.length = names.length := by
    rw [mapExcept_ok_length hvals, List.length_take]
    omega
  rw [hzip]
  simp only [List.drop_zero, List.nil_append]
  exact List.map_fst_zip _ _ (by simp [hvlen])

theorem addCols_map_str : ∀ (names pre : List String), (pre ++ names).Nodup →
    addCols (pre.map PyVal.str) (names.map PyVal.str) = (pre ++ names).map PyVal.str := by
  intro names
  induction names with
  | nil => intro pre _; simp [addCols]
  | cons n rest ih =>
    intro pre hnd
    have hn : n ∉ pre := by
      intro hmem
      exact (List.disjoint_of_nodup_append hnd) hmem (List.mem_cons_self n rest)
    have hnot : ((pre.map PyVal.str).any fun c => pyEqb c (.str n)) = false := by
      rw [List.any_eq_false]
      intro c hc
      rcases List.mem_map.mp hc with ⟨p, hp, rfl⟩
      simp only [pyEqb, beq_eq_false_iff_ne, ne_eq]
      intro heq
      exact hn (eq_of_beq heq ▸ hp)
    simp only [List.map_cons, addCols, hnot, Bool.false_eq_true, if_false]
    have hstep : pre.map PyVal.str ++ [PyVal.str n] = (pre ++ [n]).map PyVal.str := by simp
    have hnd2 : ((pre ++ [n]) ++ rest).Nodup := by
      rw [List.append_assoc, List.singleton_append]
      exact hnd
    rw [hstep, ih (pre ++ [n]) hnd2, List.append_assoc, List.singleton_append]

theorem addCols_absorb (acc : List PyVal) :
    ∀ (ks : List PyVal), (∀ k ∈ ks, (acc.any fun c => pyEqb c k) = true) →
      addCols acc ks = acc := by
  intro ks
  induction ks with
  | nil => intro _; rfl
  | cons k rest ih =>
    intro h
    simp only [addCols, h k (List.mem_cons_self k rest), if_true]
    exact ih (fun k2 hk2 => h k2 (List.mem_cons_of_mem k hk2))

/-- Columns derived from a non-empty list of rows that all have exactly
the (distinct) field names as keys are those field names, in order. -/
theorem collectCols_all_fns (names : List String) (hnd : names.Nodup) :
    ∀ (rows : List Row), (∀ r ∈ rows, r.map Prod.fst = names.map PyVal.str) → rows ≠ [] →
      collectCols rows = names.map PyVal.str := by
  have habs : ∀ (rest : List Row), (∀ r ∈ rest, r.map Prod.fst = names.map PyVal.str) →
      List.foldl (fun acc r => addCols acc (r.map (fun kv => kv.1))) (names.map PyVal.str) rest =
        names.map PyVal.str := by
    intro rest
    induction rest with
    | nil => intro _; rfl
    | cons r rs ih =>
      intro h
      have hr : r.map (fun kv => kv.1) = names.map PyVal.str := h r (List.mem_cons_self r rs)
      simp only [List.foldl_cons, hr]
      rw [addCols_absorb]
      · exact ih (fun r2 hr2 => h r2 (List.mem_cons_of_mem r hr2))
      · intro k hk
        rcases List.mem_map.mp hk with ⟨nm, hnm, rfl⟩
        refine List.any_eq_true.mpr ⟨.str nm, List.mem_map_of_mem _ hnm, ?_⟩
        simp [pyEqb]
  intro rows
  cases rows with
  | nil => intro _ hne; exact absurd rfl hne
  | cons r0 rest =>
    intro hkeys _
    simp only [collectCols, List.foldl_cons]
    have h0 : r0.map (fun kv => kv.1) = names.map PyVal.str :=
      hkeys r0 (List.mem_cons_self r0 rest)
    rw [h0, show addCols [] (names.map PyVal.str) = names.map PyVal.str from by
      simpa using addCols_map_str names [] (by simpa using hnd)]
    exact habs rest (fun r hr => hkeys r (List.mem_cons_of_mem r0 hr))


/-- Claim C4 counterexample: with one field `a` and a single row lacking
`record_value`, `to_dataframe` succeeds with an EMPTY column index — not
with the schema field names. -/
theorem to_dataframe_all_skipped_drops_columns :
    to_dataframe (fun _ => .error "unused") true
      (mkQueryResult (.dict
        [("schema", .dict [("fields", .list [.dict [("name", .str "a")]])]),
         ("data", .dict [("array_value", .list [.dict []])])])) =
      .ok { columns := [], records := [] } ∧
    ({ columns := [], records := [] } : DataFrame).columns ≠ [PyVal.str "a"] := by
  refine ⟨rfl, ?_⟩
  simp

/-- Claim C4 (amended): with pandas available and schema fields present,
`to_dataframe` returns a table whose columns are the schema field names
(in schema order, zero rows) when `data.array_value` is an empty
sequence; when `array_value` is non-empty but every row lacks
`record_value`, it returns a table with NO columns at all; and when the
field names are distinct and every row carrying `record_value` supplies
at least as many cells as there are fields (at least one such row), the
columns are again exactly the schema field names in schema order. -/
theorem to_dataframe_columns (loads : String → Except String PyVal)
    (pkvs skvs dkvs : List (String × PyVal)) (fns : List PyVal) (rl : List PyVal)
    (hs : dictLookup pkvs "schema" = some (.dict skvs))
    (hf : hasKey skvs "fields" = true)
    (hd : dictLookup pkvs "data" = some (.dict dkvs))
    (hfn : fieldNamesOf (.dict skvs) = .ok fns) :
    (dictLookup dkvs "array_value" = some (.list []) →
      to_dataframe loads true (mkQueryResult (.dict pkvs)) =
        .ok { columns := fns, records := [] }) ∧
    (dictLookup dkvs "array_value" = some (.list rl) → rl ≠ [] →
      rl.all (fun r => isDictB r && !rowHasRecordValue r) = true →
      to_dataframe loads true (mkQueryResult (.dict pkvs)) =
        .ok { columns := [], records := [] }) ∧
    (∀ (names : List String) (df : DataFrame),
      fns = names.map PyVal.str → names.Nodup →
      dictLookup dkvs "array_value" = some (.list rl) →
      rl.all (rowCoversFields names.length) = true →
      rl.any rowHasRecordValue = true →
      to_dataframe loads true (mkQueryResult (.dict pkvs)) = .ok df →
      df.columns = fns) := by
  have hsg : dictGetD pkvs "schema" (.dict []) = .dict skvs := by simp [dictGetD, hs]
  have hdg : dictGetD pkvs "data" (.dict []) = .dict dkvs := by simp [dictGetD, hd]
  have htr : truthy (.dict skvs) = true := truthy_of_hasKey hf
  refine ⟨?_, ?_, ?_⟩
  · intro ha
    have hak : hasKey dkvs "array_value" = true := by simp [hasKey, ha]
    have htd : truthy (.dict dkvs) = true := truthy_of_hasKey hak
    have hsub : pySubscript (.dict dkvs) "array_value" = .ok (.list []) := by
      simp [pySubscript, ha]
    simp only [to_dataframe, getResultAttr_mk, parse_dict_ok, pyGet, hsg, hdg, htr, htd,
      tagCheck, hf, hak, hsub, pyLen, pyIter, hfn, Bool.not_true, Bool.false_eq_true,
      if_false, List.length_nil]
    rfl
  · intro ha hne hall
    have hak : hasKey dkvs "array_value" = true := by simp [hasKey, ha]
    have htd : truthy (.dict dkvs) = true := truthy_of_hasKey hak
    have hsub : pySubscript (.dict dkvs) "array_value" = .ok (.list rl) := by
      simp [pySubscript, ha]
    have hlen0 : (rl.length == 0) = false := by
      simp only [beq_eq_false_iff_ne, ne_eq]
      intro h
      exact hne (List.length_eq_zero.mp h)
    have hbr : buildRowsDf true fns rl = .ok [] := buildRowsDf_all_skipped true fns rl hall
    simp only [to_dataframe, getResultAttr_mk, parse_dict_ok, pyGet, hsg, hdg, htr, htd,
      tagCheck, hf, hak, hsub, pyLen, pyIter, hfn, hlen0, hbr, Bool.not_true,
      Bool.false_eq_true, if_false, mkDataFrameRecords, collectCols]
    rfl
  · intro names df hfns hnd ha hcov hany hok
    subst hfns
    have hak : hasKey dkvs "array_value" = true := by simp [hasKey, ha]
    have htd : truthy (.dict dkvs) = true := truthy_of_hasKey hak
    have hsub : pySubscript (.dict dkvs) "array_value" = .ok (.list rl) := by
      simp [pySubscript, ha]
    have hne : rl ≠ [] := by
      intro h
      subst h
      simp at hany
    have hlen0 : (rl.length == 0) = false := by
      simp only [beq_eq_false_iff_ne, ne_eq]
      intro h
      exact hne (List.length_eq_zero.mp h)
    have hall : rl.all isDictB = true := by
      rw [List.all_eq_true] at hcov ⊢
      intro r hr
      have hc := hcov r hr
      cases r with
      | dict kvs => rfl
      | str s => simp [rowCoversFields] at hc
      | num n => simp [rowCoversFields] at hc
      | bool b => simp [rowCoversFields] at hc
      | none => simp [rowCoversFields] at hc
      | list xs => simp [rowCoversFields] at hc
      | timestamp v => simp [rowCoversFields] at hc
    simp only [to_dataframe, getResultAttr_mk, parse_dict_ok, pyGet, hsg, hdg, htr, htd,
      tagCheck, hf, hak, hsub, pyLen, pyIter, hfn, hlen0, Bool.not_true,
      Bool.false_eq_true, if_false, buildRowsDf_eq_buildRowsDict] at hok
    cases hbr : buildRowsDict true (names.map PyVal.str) rl with
    | error e => simp only [hbr] at hok; exact Except.noConfusion hok
    | ok rows0 =>
      simp only [hbr] at hok
      injection hok with hok
      subst hok
      rw [buildRowsDict_eq_filter true (names.map PyVal.str) rl hall] at hbr
      have hkeys : ∀ rd ∈ rows0, rd.map Prod.fst = names.map PyVal.str := by
        intro rd hrd
        obtain ⟨r, hrfil, hmat⟩ := mapExceptRows_mem hbr rd hrd
        obtain ⟨hrl, hrec⟩ := List.mem_filter.mp hrfil
        have hcovr := List.all_eq_true.mp hcov r hrl
        cases r with
        | str s => simp [rowHasRecordValue] at hrec
        | num n => simp [rowHasRecordValue] at hrec
        | bool b => simp [rowHasRecordValue] at hrec
        | none => simp [rowHasRecordValue] at hrec
        | list xs => simp [rowHasRecordValue] at hrec
        | timestamp v => simp [rowHasRecordValue] at hrec
        | dict kvs =>
          simp only [rowHasRecordValue] at hrec
          rcases hasKey_dictLookup hrec with ⟨p, hp⟩
          simp only [rowCoversFields, hp] at hcovr
          cases p with
          | list cells =>
            exact materialize_full_row_keys true names hnd kvs cells rd hp
              (by simpa using hcovr) hmat
          | str s2 => exact absurd hcovr (by simp)
          | num n2 => exact absurd hcovr (by simp)
          | bool b2 => exact absurd hcovr (by simp)
          | none => exact absurd hcovr (by simp)
          | dict kvs2 => exact absurd hcovr (by simp)
          | timestamp v2 => exact absurd hcovr (by simp)
      have hne0 : rows0 ≠ [] := by
        rcases List.any_eq_true.mp hany with ⟨r, hr, hpr⟩
        have hmem : r ∈ rl.filter rowHasRecordValue := List.mem_filter.mpr ⟨hr, hpr⟩
        intro h0
        subst h0
        have hlenr := mapExceptRows_ok_length hbr
        have : rl.filter rowHasRecordValue = [] :=
          List.eq_nil_of_length_eq_zero hlenr.symm
        rw [this] at hmem
        cases hmem
      simp only [mkDataFrameRecords]
      exact collectCols_all_fns names hnd rows0 hkeys hne0

/-- Witness for `to_dataframe_columns`: columns are the schema field
names on an empty `array_value`, and empty when the only row lacks
`record_value`. -/
theorem to_dataframe_columns_witness :
    to_dataframe (fun _ => .error "unused") true
      (mkQueryResult (.dict
        [("schema", .dict [("fields", .list [.dict [("name", .str "a")]])]),
         ("data", .dict [("array_value", .list [])])])) =
      .ok { columns := [PyVal.str "a"], records := [] } ∧
    to_dataframe (fun _ => .error "unused") true
      (mkQueryResult (.dict
        [("schema", .dict [("fields", .list [.dict [("name", .str "a")]])]),
         ("data", .dict [("array_value", .list [.dict [("x", .num 1)]])])])) =
      .ok { columns := [], records := [] } ∧
    ({ columns := [PyVal.str "a"], records := [[(PyVal.str "a", PyVal.num 1)]] } :
      DataFrame).columns = [PyVal.str "a"] := by
  refine ⟨?_, ?_, ?_⟩
  · exact (to_dataframe_columns (fun _ => .error "unused")
      [("schema", .dict [("fields", .list [.dict [("name", .str "a")]])]),
       ("data", .dict [("array_value", .list [])])]
      [("fields", .list [.dict [("name", .str "a")]])]
      [("array_value", .list [])]
      [.str "a"] [] rfl rfl rfl rfl).1 rfl
  · exact (to_dataframe_columns (fun _ => .error "unused")
      [("schema", .dict [("fields", .list [.dict [("name", .str "a")]])]),
       ("data", .dict [("array_value", .list [.dict [("x", .num 1)]])])]
      [("fields", .list [.dict [("name", .str "a")]])]
      [("array_value", .list [.dict [("x", .num 1)]])]
      [.str "a"] [.dict [("x", .num 1)]] rfl rfl rfl rfl).2.1 rfl
      (by simp) rfl
  · exact (to_dataframe_columns (fun _ => .error "unused")
      [("schema", .dict [("fields", .list [.dict [("name", .str "a")]])]),
       ("data", .dict [("array_value", .list
         [.dict [("record_value", .list [.dict [("number_value", .num 1)]])]])])]
      [("fields", .list [.dict [("name", .str "a")]])]
      [("array_value", .list [.dict [("record_value", .list [.dict [("number_value", .num 1)]])]])]
      [.str "a"] [.dict [("record_value", .list [.dict [("number_value", .num 1)]])]]
      rfl rfl rfl rfl).2.2 ["a"]
      { columns := [.str "a"], records := [[(.str "a", .num 1)]] }
      rfl (by decide) rfl rfl rfl rfl

/-- Claim C10: on any input where both operations succeed (with a
non-empty `array_value`), the row dicts out of which `to_dataframe`
builds its frame are exactly the rows returned by `to_dict` — the two
duplicated loops share one row-materialization semantics. -/
theorem to_dataframe_records_eq_to_dict (loads : String → Except String PyVal) (pdA : Bool)
    (pkvs skvs dkvs : List (String × PyVal)) (rl : List PyVal)
    (df : DataFrame) (rows : List Row)
    (hs : dictLookup pkvs "schema" = some (.dict skvs))
    (hf : hasKey skvs "fields" = true)
    (hd : dictLookup pkvs "data" = some (.dict dkvs))
    (ha : dictLookup dkvs "array_value" = some (.list rl))
    (hne : rl ≠ [])
    (hok1 : to_dataframe loads pdA (mkQueryResult (.dict pkvs)) = .ok df)
    (hok2 : to_dict loads pdA (mkQueryResult (.dict pkvs)) = .ok rows) :
    df.records = rows := by
  cases pdA with
  | false => simp [to_dataframe] at hok1
  | true =>
    have hsg : dictGetD pkvs "schema" (.dict []) = .dict skvs := by simp [dictGetD, hs]
    have hdg : dictGetD pkvs "data" (.dict []) = .dict dkvs := by simp [dictGetD, hd]
    have htr : truthy (.dict skvs) = true := truthy_of_hasKey hf
    have hak : hasKey dkvs "array_value" = true := by simp [hasKey, ha]
    have htd : truthy (.dict dkvs) = true := truthy_of_hasKey hak
    have hsub : pySubscript (.dict dkvs) "array_value" = .ok (.list rl) := by
      simp [pySubscript, ha]
    have hlen0 : (rl.length == 0) = false := by
      simp only [beq_eq_false_iff_ne, ne_eq]
      intro h
      exact hne (List.length_eq_zero.mp h)
    simp only [to_dataframe, getResultAttr_mk, parse_dict_ok, pyGet, hsg, hdg, htr, htd,
      tagCheck, hf, hak, hsub, pyLen, pyIter, hlen0, Bool.not_true, Bool.false_eq_true,
      if_false, buildRowsDf_eq_buildRowsDict] at hok1
    simp only [to_dict, getResultAttr_mk, parse_dict_ok, pyGet, hsg, hdg, htr, htd,
      tagCheck, hf, hak, hsub, pyIter, Bool.not_true, Bool.false_eq_true, if_false] at hok2
    cases hfn : fieldNamesOf (.dict skvs) with
    | error e => simp only [hfn] at hok1; cases hok1
    | ok fns =>
      simp only [hfn] at hok1 hok2
      cases hbr : buildRowsDict true fns rl with
      | error e => simp only [hbr] at hok1; cases hok1
      | ok rows0 =>
        simp only [hbr] at hok1 hok2
        injection hok1 with hok1
        injection hok2 with hok2
        subst hok1
        subst hok2
        rfl

/-- Witness for `to_dataframe_records_eq_to_dict` at a concrete two-row
result. -/
theorem to_dataframe_records_eq_to_dict_witness :
    ({ columns := [PyVal.str "a"],
       records := [[(PyVal.str "a", PyVal.num 1)], [(PyVal.str "a", PyVal.num 2)]] } :
      DataFrame).records =
      [[(PyVal.str "a", PyVal.num 1)], [(PyVal.str "a", PyVal.num 2)]] :=
  to_dataframe_records_eq_to_dict (fun _ => .error "unused") true
    [("schema", .dict [("fields", .list [.dict [("name", .str "a")]])]),
     ("data", .dict [("array_value", .list
       [.dict [("record_value", .list [.dict [("number_value", .num 1)]])],
        .dict [("record_value", .list [.dict [("number_value", .num 2)]])]])])]
    [("fields", .list [.dict [("name", .str "a")]])]
    [("array_value", .list
       [.dict [("record_value", .list [.dict [("number_value", .num 1)]])],
        .dict [("record_value", .list [.dict [("number_value", .num 2)]])]])]
    [.dict [("record_value", .list [.dict [("number_value", .num 1)]])],
     .dict [("record_value", .list [.dict [("number_value", .num 2)]])]]
    { columns := [PyVal.str "a"],
      records := [[(PyVal.str "a", PyVal.num 1)], [(PyVal.str "a", PyVal.num 2)]] }
    [[(PyVal.str "a", PyVal.num 1)], [(PyVal.str "a", PyVal.num 2)]]
    rfl rfl rfl rfl (by simp) rfl rfl

end Publisher
